import Mathlib

/-!
Verification development for the teams-ai-agent repository.

The development shallowly embeds the TypeScript modules that the checked
properties are about:

* `src/githubToolParser.ts` — the pattern-based intent resolver
  (`GitHubToolParser`) and the LLM-driven MCP service
  (`GitHubMcpService`, in its `githubMcpService.ts` half), including both
  result formatters;
* `src/app/app.ts` — the keyword-based tool resolver and the sequential
  tool-execution loop of the message handler;
* `src/githubOAuth.ts` / `src/tokenStore.ts` — token records and their
  age-based validity check.

JavaScript dynamic values are embedded as the inductive type `JSVal`
(mutually with `JSList` for array element lists and `JSFields` for object
field lists).  JS numbers are modelled as `Int` (every number the embedded
code manipulates is integral).  Operations that can throw a `TypeError` at
run time (calling `.substring` on a non-string, `.map` on a non-array,
reading a property of `null`/`undefined`) are modelled in the `Except Unit`
monad; `try`/`catch` blocks become a `match` on the `Except` result.

Two deliberate abstractions, noted where used:
* `new Date(x).toLocaleDateString()` is modelled by an injective marker
  string around the raw value (it never throws in JS — an invalid date
  renders as the string "Invalid Date" — and no checked property depends on
  the locale text);
* `JSON.stringify(x, null, 2)` is modelled without insignificant
  whitespace (no checked property depends on JSON whitespace).
-/

/-! ## The JavaScript value model -/

mutual

inductive JSVal : Type where
  | null : JSVal
  | undefined : JSVal
  | bool (b : Bool) : JSVal
  | num (n : Int) : JSVal
  | str (s : String) : JSVal
  | arr (elems : JSList) : JSVal
  | obj (fields : JSFields) : JSVal

inductive JSList : Type where
  | nil : JSList
  | cons (hd : JSVal) (tl : JSList) : JSList

inductive JSFields : Type where
  | nil : JSFields
  | cons (key : String) (val : JSVal) (tl : JSFields) : JSFields

end

/-- Length of an embedded JS array. -/
def JSList.len : JSList → Nat
  | .nil => 0
  | .cons _ tl => tl.len + 1

/-- The elements of an embedded JS array as a Lean list. -/
def JSList.toList : JSList → List JSVal
  | .nil => []
  | .cons x tl => x :: tl.toList

/-- Build an embedded JS array element list from a Lean list. -/
def JSList.ofList : List JSVal → JSList
  | [] => .nil
  | x :: tl => .cons x (JSList.ofList tl)

/-- First value bound to `k`, if any (object fields are distinct keys). -/
def JSFields.get : JSFields → String → Option JSVal
  | .nil, _ => none
  | .cons k v tl, k' => if k = k' then some v else tl.get k'

/-- Build an embedded JS object field list from a Lean association list. -/
def JSFields.ofList : List (String × JSVal) → JSFields
  | [] => .nil
  | (k, v) :: tl => .cons k v (JSFields.ofList tl)

/-- JS truthiness: `null`, `undefined`, `false`, `0` and `""` are falsy;
arrays and objects are always truthy. -/
def jsTruthy : JSVal → Bool
  | .null => false
  | .undefined => false
  | .bool b => b
  | .num n => n != 0
  | .str s => s ≠ ""
  | .arr _ => true
  | .obj _ => true

/-- `typeof v === 'object'` — true for objects, arrays and (notoriously)
`null`. -/
def jsTypeofObject : JSVal → Bool
  | .null => true
  | .arr _ => true
  | .obj _ => true
  | _ => false

/-- `Array.isArray v`. -/
def jsIsArray : JSVal → Bool
  | .arr _ => true
  | _ => false

/-- `v === undefined`. -/
def jsIsUndefined : JSVal → Bool
  | .undefined => true
  | _ => false

/-- `v === "s"` (strict equality against a string literal). -/
def jsStrEq (v : JSVal) (s : String) : Bool :=
  match v with
  | .str t => t = s
  | _ => false

mutual

/-- JS string coercion `String(v)` / template interpolation. -/
def jsToString : JSVal → String
  | .null => "null"
  | .undefined => "undefined"
  | .bool b => if b then "true" else "false"
  | .num n => toString n
  | .str s => s
  | .arr xs => jsArrToString xs
  | .obj _ => "[object Object]"

/-- `Array.prototype.toString` = `join(",")`; `null`/`undefined` elements
render as the empty string. -/
def jsArrToString : JSList → String
  | .nil => ""
  | .cons x .nil => jsElemToString x
  | .cons x tl => jsElemToString x ++ "," ++ jsArrToString tl

/-- Element coercion used by `Array.prototype.join`. -/
def jsElemToString : JSVal → String
  | .null => ""
  | .undefined => ""
  | .bool b => if b then "true" else "false"
  | .num n => toString n
  | .str s => s
  | .arr xs => jsArrToString xs
  | .obj _ => "[object Object]"

end

/-- Property read on a receiver known not to be `null`/`undefined`:
missing keys and all named properties of primitives/arrays read as
`undefined`. -/
def jsProp (v : JSVal) (k : String) : JSVal :=
  match v with
  | .obj fs => (fs.get k).getD .undefined
  | _ => .undefined

/-- Plain property read `v.k`: throws a `TypeError` when the receiver is
`null` or `undefined`. -/
def jsPropE (v : JSVal) (k : String) : Except Unit JSVal :=
  match v with
  | .null => .error ()
  | .undefined => .error ()
  | _ => .ok (jsProp v k)

/-- Optional chaining `v?.k`: yields `undefined` on a `null`/`undefined`
receiver instead of throwing. -/
def jsChain (v : JSVal) (k : String) : JSVal :=
  match v with
  | .null => .undefined
  | .undefined => .undefined
  | _ => jsProp v k

/-- The value of `v.length`: string and array lengths are numbers, objects
read their `length` field, other primitives read `undefined`. -/
def jsLengthVal : JSVal → JSVal
  | .str s => .num s.length
  | .arr xs => .num xs.len
  | .obj fs => (fs.get "length").getD .undefined
  | _ => .undefined

/-- `ToNumber` on the values the embedded comparisons meet.  `undefined`
(and, as a simplification, arrays and objects, whose `ToPrimitive` round
the embedded code never exercises) convert to NaN, modelled as `none`. -/
def jsToNumberOpt : JSVal → Option Int
  | .num n => some n
  | .str s => s.toInt?
  | .bool b => some (if b then 1 else 0)
  | .null => some 0
  | _ => none

/-- `v > k` for an integer literal `k`: NaN comparisons are false. -/
def jsGTnum (v : JSVal) (k : Int) : Bool :=
  match jsToNumberOpt v with
  | some n => n > k
  | none => false

/-- `v.substring(0, n)`: only strings have `substring`; anything else
throws a `TypeError`. -/
def jsSubstringE (v : JSVal) (n : Nat) : Except Unit String :=
  match v with
  | .str s => .ok (String.mk (s.toList.take n))
  | _ => .error ()

/-- Escape for the JSON stringifier. -/
def jsonEscapeChar (c : Char) : String :=
  if c = '"' then "\\\"" else
  if c = '\\' then "\\\\" else
  if c = '\n' then "\\n" else
  String.singleton c

/-- Escape a string for JSON output. -/
def jsonEscape (s : String) : String :=
  String.join (s.toList.map jsonEscapeChar)

mutual

/-- `JSON.stringify` (whitespace abstracted — see the header note).
Inside containers, `undefined` renders as `null` in arrays and object
fields holding it are skipped, as in JS. -/
def jsonStringify : JSVal → String
  | .null => "null"
  | .undefined => "null"
  | .bool b => if b then "true" else "false"
  | .num n => toString n
  | .str s => "\"" ++ jsonEscape s ++ "\""
  | .arr xs => "[" ++ String.intercalate "," (jsonStringifyList xs) ++ "]"
  | .obj fs => "\x7b" ++ String.intercalate "," (jsonStringifyFields fs) ++ "\x7d"

/-- Array elements for `jsonStringify`. -/
def jsonStringifyList : JSList → List String
  | .nil => []
  | .cons x tl => jsonStringify x :: jsonStringifyList tl

/-- Object fields for `jsonStringify`; `undefined`-valued fields are
skipped. -/
def jsonStringifyFields : JSFields → List String
  | .nil => []
  | .cons _ .undefined tl => jsonStringifyFields tl
  | .cons k v tl => ("\"" ++ jsonEscape k ++ "\":" ++ jsonStringify v) :: jsonStringifyFields tl

end

/-- Interpolating `JSON.stringify(v)` into a template: stringifying a
top-level `undefined` yields the value `undefined`, which the template
coerces to the text "undefined". -/
def jsonTemplate (v : JSVal) : String :=
  match v with
  | .undefined => "undefined"
  | _ => jsonStringify v

/-- Abstract rendering of `new Date(v).toLocaleDateString()` — an
injective marker around the raw value; see the header note. -/
def newDateToLocale (v : JSVal) : String :=
  "<date:" ++ jsToString v ++ ">"

example : jsToString (.arr (.cons (.num 3) (.cons (.obj .nil) (.cons .null .nil)))) = "3,[object Object]," := rfl

example : jsonStringify (.obj (.cons "a" (.num 1) (.cons "b" .undefined (.cons "c" (.str "x") .nil)))) = "\x7b\"a\":1,\"c\":\"x\"\x7d" := rfl

/-- The elements of a value known to be an array. -/
def arrElems : JSVal → JSList
  | .arr xs => xs
  | _ => .nil

/-! ## GitHubMcpService (src/githubToolParser.ts, githubMcpService.ts half) -/

namespace GitHubMcpService

/-- `formatSingleItem(item)` — format a single result item.  Branches in
source order: non-objects are string-coerced; then the issue shape
(`item.number && item.title`); then the repository shape
(`item.name && item.full_name`); then the pull-request shape
(`item.number && item.title && item.head`); then the key/value fallback.
The only throwing operation is `item.body.substring(0, 200)` when `body`
is a truthy non-string whose `length` compares greater than 200. -/
def formatSingleItem (item : JSVal) : Except Unit String :=
  if !(jsTruthy item) || !(jsTypeofObject item) then
    .ok (jsToString item)
  else if jsTruthy (jsProp item "number") && jsTruthy (jsProp item "title") then do
    let f0 := "**#" ++ jsToString (jsProp item "number") ++ ": " ++
      jsToString (jsProp item "title") ++ "**\n"
    let f1 := if jsTruthy (jsProp item "state") then
        f0 ++ "Status: " ++ jsToString (jsProp item "state") ++ "\n" else f0
    let login := jsChain (jsProp item "user") "login"
    let f2 := if jsTruthy login then f1 ++ "Author: " ++ jsToString login ++ "\n" else f1
    let f3 := if jsTruthy (jsProp item "created_at") then
        f2 ++ "Created: " ++ newDateToLocale (jsProp item "created_at") ++ "\n" else f2
    let body := jsProp item "body"
    let f4 ←
      if jsTruthy body then do
        let preview ←
          if jsGTnum (jsLengthVal body) 200 then do
            let s ← jsSubstringE body 200
            pure (s ++ "...")
          else pure (jsToString body)
        pure (f3 ++ "\nDescription:\n" ++ preview)
      else pure f3
    let f5 := if jsTruthy (jsProp item "html_url") then
        f4 ++ "\n\n🔗 [View on GitHub](" ++ jsToString (jsProp item "html_url") ++ ")" else f4
    .ok f5
  else if jsTruthy (jsProp item "name") && jsTruthy (jsProp item "full_name") then
    let f0 := "**" ++ jsToString (jsProp item "full_name") ++ "**\n"
    let f1 := if jsTruthy (jsProp item "description") then
        f0 ++ jsToString (jsProp item "description") ++ "\n" else f0
    let f2 := if jsTruthy (jsProp item "language") then
        f1 ++ "Language: " ++ jsToString (jsProp item "language") ++ "\n" else f1
    let f3 := if !(jsIsUndefined (jsProp item "stargazers_count")) then
        f2 ++ "⭐ " ++ jsToString (jsProp item "stargazers_count") ++ " stars\n" else f2
    let f4 := if jsTruthy (jsProp item "html_url") then
        f3 ++ "🔗 [View on GitHub](" ++ jsToString (jsProp item "html_url") ++ ")" else f3
    .ok f4
  else if jsTruthy (jsProp item "number") && jsTruthy (jsProp item "title") &&
      jsTruthy (jsProp item "head") then
    let f0 := "**PR #" ++ jsToString (jsProp item "number") ++ ": " ++
      jsToString (jsProp item "title") ++ "**\n"
    let f1 := if jsTruthy (jsProp item "state") then
        f0 ++ "Status: " ++ jsToString (jsProp item "state") ++ "\n" else f0
    let login := jsChain (jsProp item "user") "login"
    let f2 := if jsTruthy login then f1 ++ "Author: " ++ jsToString login ++ "\n" else f1
    let headRef := jsChain (jsProp item "head") "ref"
    let baseRef := jsChain (jsProp item "base") "ref"
    let f3 := if jsTruthy headRef && jsTruthy baseRef then
        f2 ++ jsToString headRef ++ " → " ++ jsToString baseRef ++ "\n" else f2
    let f4 := if jsTruthy (jsProp item "created_at") then
        f3 ++ "Created: " ++ newDateToLocale (jsProp item "created_at") ++ "\n" else f3
    let f5 := if jsTruthy (jsProp item "html_url") then
        f4 ++ "🔗 [View on GitHub](" ++ jsToString (jsProp item "html_url") ++ ")" else f4
    .ok f5
  else
    let parts := (jsEntries item).filter (fun kv => keepEntry kv.2) |>.take 10
      |>.map (fun kv => kv.1 ++ ": " ++ jsToString kv.2)
    let keyValue := String.intercalate "\n" parts
    .ok (if keyValue = "" then jsonStringify item else keyValue)
where
  /-- `Object.entries` of the objects/arrays the fallback meets. -/
  jsEntries (v : JSVal) : List (String × JSVal) :=
    match v with
    | .obj fs => fieldsEntries fs
    | .arr xs => arrEntries 0 xs
    | _ => []
  fieldsEntries : JSFields → List (String × JSVal)
    | .nil => []
    | .cons k v tl => (k, v) :: fieldsEntries tl
  arrEntries (i : Nat) : JSList → List (String × JSVal)
    | .nil => []
    | .cons x tl => (toString i, x) :: arrEntries (i + 1) tl
  /-- `v !== null && v !== undefined && v !== ''` (strict comparisons). -/
  keepEntry (v : JSVal) : Bool :=
    match v with
    | .null => false
    | .undefined => false
    | .str s => s ≠ ""
    | _ => true

/-- The MCP-envelope branch of `formatToolResult`:
`result.content.map(item => item.type === 'text' ? item.text
: JSON.stringify(item, null, 2)).join('\n\n')`.  Reading `item.type` throws
on `null`/`undefined` elements; the join coerces a raw `item.text`. -/
def mapContent : JSList → Except Unit (List String)
  | .nil => .ok []
  | .cons item tl => do
    let ty ← jsPropE item "type"
    let head ←
      if jsStrEq ty "text" then do
        let t ← jsPropE item "text"
        pure (jsElemToString t)
      else
        pure (jsonStringify item)
    let rest ← mapContent tl
    .ok (head :: rest)

/-- The numbered-items branch of `formatToolResult`:
`result.map((item, index) => "**Item " + (index+1) + ":**\n" +
formatSingleItem(item))`. -/
def numberedItems (i : Nat) : JSList → Except Unit (List String)
  | .nil => .ok []
  | .cons item tl => do
    let s ← formatSingleItem item
    let rest ← numberedItems (i + 1) tl
    .ok (("**Item " ++ toString (i + 1) ++ ":**\n" ++ s) :: rest)

/-- The `try` block of `GitHubMcpService.formatToolResult` (dispatch on the
shape of `result`, in source order). -/
def formatToolResultTry (result : JSVal) : Except Unit String :=
  if jsTruthy (jsChain result "content") && jsIsArray (jsChain result "content") then do
    let parts ← mapContent (arrElems (jsChain result "content"))
    .ok (String.intercalate "\n\n" parts)
  else
    match result with
    | .str s => .ok s
    | _ =>
      if jsTypeofObject result then
        match result with
        | .arr .nil => .ok "No results found."
        | .arr (.cons x .nil) => formatSingleItem x
        | .arr xs => do
            let parts ← numberedItems 0 xs
            .ok (String.intercalate "\n\n" parts)
        | _ => formatSingleItem result
      else
        .ok (jsToString result)

/-- `GitHubMcpService.formatToolResult(toolName, result)`: the `try` block
with its `catch`, which degrades to the raw JSON.  (`toolName` is unused in
the source body as well.) -/
def formatToolResult (_toolName : String) (result : JSVal) : String :=
  match formatToolResultTry result with
  | .ok s => s
  | .error _ => "Raw result: " ++ jsonTemplate result

/-- `GitHubToolResult` — per-invocation outcome record. -/
structure GitHubToolResult where
  success : Bool
  data : Option JSVal
  error : Option String
  toolName : String
  formattedResult : Option String

/-- `GitHubMcpService.executeTool(toolName, args)`.  The underlying
`mcpClient.callTool` is an oracle parameter returning the raw structured
result or the thrown error message. -/
def executeTool (callTool : String → List (String × JSVal) → Except String JSVal)
    (toolName : String) (args : List (String × JSVal)) : GitHubToolResult :=
  match callTool toolName args with
  | .ok result =>
      { success := true, data := some result, error := none, toolName := toolName,
        formattedResult := some (formatToolResult toolName result) }
  | .error e =>
      { success := false, data := none, error := some e, toolName := toolName,
        formattedResult := none }

/-- `GitHubTool` descriptor.  `name`/`description` are `string` per the
interface; non-string payload values are string-coerced in the model. -/
structure GitHubTool where
  name : String
  description : String
  inputSchema : JSVal

/-- One element of `toolsResponse.tools.map(tool => ...)`; reading
`tool.name` throws on `null`/`undefined` elements. -/
def toGitHubTool (tool : JSVal) : Except Unit GitHubTool := do
  let nm ← jsPropE tool "name"
  let desc := jsProp tool "description"
  let schema := jsProp tool "inputSchema"
  .ok { name := jsToString nm,
        description := if jsTruthy desc then jsToString desc else "No description available",
        inputSchema := if jsTruthy schema then schema else .obj .nil }

/-- The `tools.map` of `loadAvailableTools`. -/
def mapToolsE : JSList → Except Unit (List GitHubTool)
  | .nil => .ok []
  | .cons t tl => do
    let g ← toGitHubTool t
    let rest ← mapToolsE tl
    .ok (g :: rest)

/-- The mutable per-instance state of `GitHubMcpService`. -/
structure McpServiceState where
  availableTools : List GitHubTool
  toolsLoaded : Bool

/-- `loadAvailableTools()`, as a function of the outcome of the underlying
`mcpClient.listTools()` call.  Success parses the catalog (defaulting to
`[]` when `toolsResponse?.tools` is not an array, or when the `map`
throws); failure is caught and caches `[]`.  Either way `toolsLoaded`
becomes true. -/
def loadAvailableTools (listToolsResult : Except String JSVal) : McpServiceState :=
  match listToolsResult with
  | .error _ => { availableTools := [], toolsLoaded := true }
  | .ok resp =>
      if jsTruthy (jsChain resp "tools") && jsIsArray (jsChain resp "tools") then
        match mapToolsE (arrElems (jsChain resp "tools")) with
        | .ok ts => { availableTools := ts, toolsLoaded := true }
        | .error _ => { availableTools := [], toolsLoaded := true }
      else
        { availableTools := [], toolsLoaded := true }

/-- `getAvailableTools()`: loads once if not yet loaded, else returns the
cache.  The third component counts the `listTools` calls this invocation
issues (1 on a load, 0 on a cache hit). -/
def getAvailableTools (listToolsResult : Except String JSVal) (s : McpServiceState) :
    List GitHubTool × McpServiceState × Nat :=
  if s.toolsLoaded then (s.availableTools, s, 0)
  else
    let s2 := loadAvailableTools listToolsResult
    (s2.availableTools, s2, 1)

/-- Progress of one in-flight `getAvailableTools()` call: `ready` — about
to test `toolsLoaded`; `awaiting` — issued `listTools()` and suspended at
its `await`; `finished` — returned. -/
inductive CallPhase : Type where
  | ready : CallPhase
  | awaiting : CallPhase
  | finished : CallPhase

/-- Shared service state plus two concurrent `getAvailableTools()` calls
and the running count of issued `listTools()` calls. -/
structure ConcState where
  svc : McpServiceState
  listCalls : Nat
  phase1 : CallPhase
  phase2 : CallPhase

/-- One cooperative step of a single `getAvailableTools()` call.  From
`ready`, the `toolsLoaded` test and (when false) the dispatch of
`listTools()` happen without an intervening `await`, so they form one
atomic step ending suspended at the `await`; the response is processed in
a later step. -/
def stepPhase (r : Except String JSVal) (svc : McpServiceState) :
    CallPhase → McpServiceState × CallPhase × Nat
  | .ready => if svc.toolsLoaded then (svc, .finished, 0) else (svc, .awaiting, 1)
  | .awaiting => (loadAvailableTools r, .finished, 0)
  | .finished => (svc, .finished, 0)

/-- Schedule one step of call 1 (`true`) or call 2 (`false`). -/
def stepConc (r : Except String JSVal) (st : ConcState) (first : Bool) : ConcState :=
  if first then
    let (svc2, p2, d) := stepPhase r st.svc st.phase1
    { svc := svc2, listCalls := st.listCalls + d, phase1 := p2, phase2 := st.phase2 }
  else
    let (svc2, p2, d) := stepPhase r st.svc st.phase2
    { svc := svc2, listCalls := st.listCalls + d, phase1 := st.phase1, phase2 := p2 }

/-- Run an interleaving of the two calls. -/
def runSched (r : Except String JSVal) : List Bool → ConcState → ConcState
  | [], st => st
  | b :: rest, st => runSched r rest (stepConc r st b)

/-- A never-loaded instance with two `getAvailableTools()` calls about to
run and no `listTools()` call issued yet. -/
def freshConc : ConcState :=
  { svc := { availableTools := [], toolsLoaded := false },
    listCalls := 0, phase1 := .ready, phase2 := .ready }

end GitHubMcpService

/-! ## GitHubToolParser (src/githubToolParser.ts, pattern strategy) -/

namespace GitHubToolParser

/-- ASCII lowering, modelling `String.prototype.toLowerCase` on the ASCII
texts the parser receives. -/
def toLowerStr (s : String) : String :=
  String.mk (s.toList.map Char.toLower)

/-- JS whitespace (`\s` / `trim`), restricted to the ASCII space forms. -/
def isSpaceJS (c : Char) : Bool :=
  c = ' ' || c = '\t' || c = '\n' || c = '\r' || c = '\x0b' || c = '\x0c'

/-- `String.prototype.trim`. -/
def trimStr (s : String) : String :=
  String.mk (((s.toList.dropWhile isSpaceJS).reverse.dropWhile isSpaceJS).reverse)

/-- Does `hay` start with `pat`? -/
def startsWithL : List Char → List Char → Bool
  | _, [] => true
  | [], _ :: _ => false
  | h :: hs, p :: ps => h = p && startsWithL hs ps

/-- Substring containment on character lists. -/
def hasSubL : List Char → List Char → Bool
  | hay, pat =>
    startsWithL hay pat ||
      match hay with
      | [] => false
      | _ :: tl => hasSubL tl pat

/-- `text.includes(pattern)`. -/
def hasSub (text pat : String) : Bool :=
  hasSubL text.toList pat.toList

/-- `matchesPattern(text, patterns)` = `patterns.some(p => text.includes(p))`. -/
def matchesPattern (text : String) (patterns : List String) : Bool :=
  patterns.any (fun p => hasSub text p)

/-- The regex word class `[a-zA-Z0-9-_]`. -/
def isWordChar (c : Char) : Bool :=
  ('a' ≤ c && c ≤ 'z') || ('A' ≤ c && c ≤ 'Z') || ('0' ≤ c && c ≤ '9') ||
    c = '-' || c = '_'

/-- The file-path class `[a-zA-Z0-9-_/.]`. -/
def isPathChar (c : Char) : Bool :=
  isWordChar c || c = '/' || c = '.'

/-- `\d`. -/
def isDigitC (c : Char) : Bool :=
  '0' ≤ c && c ≤ '9'

/-- The quote class `['"]` of the extraction regexes (apostrophe or double
quote). -/
def isQuote (c : Char) : Bool :=
  c = Char.ofNat 39 || c = '"'

/-- Wrap in apostrophes, as the template literals `'${...}'` do. -/
def sq (s : String) : String :=
  String.singleton (Char.ofNat 39) ++ s ++ String.singleton (Char.ofNat 39)

/-- `parseInt(digits, 10)` on a nonempty digit run. -/
def digitsToNat (ds : List Char) : Nat :=
  ds.foldl (fun a c => a * 10 + (c.toNat - 48)) 0

/-- `\s+`: consume at least one whitespace character. -/
def wsPlus (l : List Char) : Option (List Char) :=
  let (ws, rest) := l.span isSpaceJS
  if ws.isEmpty then none else some rest

/-- A nonempty greedy capture from a character class: `(cls+)`. -/
def captureCls (cls : Char → Bool) (l : List Char) : Option String :=
  let (run, _) := l.span cls
  if run.isEmpty then none else some (String.mk run)

/-- `['"]?(cls+)`: optional opening quote (greedy, with backtracking),
then the capture.  The trailing optional quote never constrains the
match. -/
def afterQuoteCls (cls : Char → Bool) (l : List Char) : Option String :=
  match l with
  | [] => none
  | c :: rest =>
    if isQuote c then (captureCls cls rest).orElse (fun _ => captureCls cls l)
    else captureCls cls l

/-- `(?:named?\s+)`: `name` with greedy optional `d`, then `\s+`.  (When
`named` is present, the `name`-then-`\s+` alternative necessarily fails on
the `d`, so trying `named` first is exactly the regex backtracking
order.) -/
def matchNamedKw (l : List Char) : Option (List Char) :=
  match (if startsWithL l ("named".toList) then wsPlus (l.drop 5) else none) with
  | some r => some r
  | none => if startsWithL l ("name".toList) then wsPlus (l.drop 4) else none

/-- The part of `/(?:repo|repository)\s+(?:named?\s+)?['"]?([a-zA-Z0-9-_]+)['"]?/`
after one of the keywords: `\s+` then the optional `named` group (with
backtracking into skipping it) then the quoted capture. -/
def repoNameTail (l : List Char) : Option String := do
  let r ← wsPlus l
  match matchNamedKw r with
  | some r2 =>
    match afterQuoteCls isWordChar r2 with
    | some s => some s
    | none => afterQuoteCls isWordChar r
  | none => afterQuoteCls isWordChar r

/-- Match the repo-name regex at one start position; the `repo`
alternative is tried before `repository`, as in the regex. -/
def repoNameAt (l : List Char) : Option String :=
  match (if startsWithL l ("repo".toList) then repoNameTail (l.drop 4) else none) with
  | some s => some s
  | none =>
    if startsWithL l ("repository".toList) then repoNameTail (l.drop 10) else none

/-- Leftmost match of the repo-name regex. -/
def scanRepoName : List Char → Option String
  | [] => none
  | l@(_ :: tl) => (repoNameAt l).orElse (fun _ => scanRepoName tl)

/-- `extractRepoName(text)`. -/
def extractRepoName (text : String) : Option String :=
  scanRepoName text.toList

/-- Match `([a-zA-Z0-9-_]+)\/([a-zA-Z0-9-_]+)` at one start position. -/
def repoSlashAt (l : List Char) : Option (String × String) :=
  let (run1, rest1) := l.span isWordChar
  if run1.isEmpty then none
  else
    match rest1 with
    | '/' :: rest2 =>
      let (run2, _) := rest2.span isWordChar
      if run2.isEmpty then none else some (String.mk run1, String.mk run2)
    | _ => none

/-- Leftmost match of the `owner/name` pattern. -/
def scanRepoSlash : List Char → Option (String × String)
  | [] => none
  | l@(_ :: tl) => (repoSlashAt l).orElse (fun _ => scanRepoSlash tl)

/-- A repository reference `{ owner, name }`. -/
structure RepoRef where
  owner : String
  name : String

/-- `extractRepoReference(text)`: the `owner/name` pattern, else the bare
repo-name pattern with owner `CURRENT_USER`, else the
`GITHUB_DEFAULT_OWNER`/`GITHUB_DEFAULT_REPO` environment defaults (used
only when both are truthy, i.e. present and nonempty). -/
def extractRepoReference (text : String) (defaultOwner defaultRepo : Option String) :
    Option RepoRef :=
  match scanRepoSlash text.toList with
  | some (o, n) => some { owner := o, name := n }
  | none =>
    match scanRepoName text.toList with
    | some n => some { owner := "CURRENT_USER", name := n }
    | none =>
      match defaultOwner, defaultRepo with
      | some o, some r => if o ≠ "" && r ≠ "" then some { owner := o, name := r } else none
      | _, _ => none

/-- Match the file-path regex `/(?:file|path)\s+['"]?([a-zA-Z0-9-_/.]+)['"]?/`
at one start position. -/
def filePathAt (l : List Char) : Option String :=
  match (if startsWithL l ("file".toList) then
      (wsPlus (l.drop 4)).bind (afterQuoteCls isPathChar) else none) with
  | some s => some s
  | none =>
    if startsWithL l ("path".toList) then
      (wsPlus (l.drop 4)).bind (afterQuoteCls isPathChar)
    else none

/-- Leftmost match of the file-path regex. -/
def scanFilePath : List Char → Option String
  | [] => none
  | l@(_ :: tl) => (filePathAt l).orElse (fun _ => scanFilePath tl)

/-- `extractFilePath(text)`. -/
def extractFilePath (text : String) : Option String :=
  scanFilePath text.toList

/-- After `issue`/`bug` in the title regex
`/(?:issue|bug)\s+['"]([^'"]+)['"]/`: `\s+`, a required opening quote, a
nonempty run of non-quote characters, and a required closing quote. -/
def titleTail (l : List Char) : Option String := do
  let r ← wsPlus l
  match r with
  | c :: rest =>
    if isQuote c then
      let (run, rest2) := rest.span (fun d => !(isQuote d))
      if run.isEmpty then none
      else
        match rest2 with
        | d :: _ => if isQuote d then some (String.mk run) else none
        | [] => none
    else none
  | [] => none

/-- Match the issue-title regex at one start position. -/
def titleAt (l : List Char) : Option String :=
  match (if startsWithL l ("issue".toList) then titleTail (l.drop 5) else none) with
  | some s => some s
  | none => if startsWithL l ("bug".toList) then titleTail (l.drop 3) else none

/-- Leftmost match of the issue-title regex. -/
def scanTitle : List Char → Option String
  | [] => none
  | l@(_ :: tl) => (titleAt l).orElse (fun _ => scanTitle tl)

/-- `extractIssueTitle(text)`. -/
def extractIssueTitle (text : String) : Option String :=
  scanTitle text.toList

/-- Match `#(\d+)|issue\s+(\d+)|number\s+(\d+)` at one start position,
alternatives in regex order.  (The `/i` flag is immaterial: the parser
lowercases its input first.) -/
def issueNumAt (l : List Char) : Option Nat :=
  match l with
  | '#' :: rest =>
    let (ds, _) := rest.span isDigitC
    if ds.isEmpty then issueNumKw l else some (digitsToNat ds)
  | _ => issueNumKw l
where
  issueNumKw (l : List Char) : Option Nat :=
    match (if startsWithL l ("issue".toList) then issueNumDigits (l.drop 5) else none) with
    | some n => some n
    | none =>
      if startsWithL l ("number".toList) then issueNumDigits (l.drop 6) else none
  issueNumDigits (l : List Char) : Option Nat := do
    let r ← wsPlus l
    let (ds, _) := r.span isDigitC
    if ds.isEmpty then none else some (digitsToNat ds)

/-- Leftmost match of the issue-number regex. -/
def scanIssueNum : List Char → Option Nat
  | [] => none
  | l@(_ :: tl) => (issueNumAt l).orElse (fun _ => scanIssueNum tl)

/-- `extractIssueNumber(text)` (`parseInt` of the matched digit group). -/
def extractIssueNumber (text : String) : Option Nat :=
  scanIssueNum text.toList

/-- `ToolInvocation` — a resolved (tool, arguments, description) triple. -/
structure ToolInvocation where
  toolName : String
  arguments : List (String × JSVal)
  description : String

/-- `GitHubToolParser.parseUserIntent(message)`, with the environment
defaults `GITHUB_DEFAULT_OWNER`/`GITHUB_DEFAULT_REPO` passed explicitly.
Each category block appends its invocation exactly when its trigger
patterns match and its extractions pass the source's truthiness guards
(note `if (issueNumber && repo)` — the number 0 is falsy). -/
def parseUserIntent (message : String) (defaultOwner defaultRepo : Option String) :
    List ToolInvocation :=
  let text := trimStr (toLowerStr message)
  let invs : List ToolInvocation := []
  let invs := if matchesPattern text ["list repos", "show repositories", "my repos", "repositories"] then
      invs ++ [{ toolName := "github_repo_list", arguments := [("type", .str "owner")],
                 description := "Listing your repositories" }]
    else invs
  let invs := if matchesPattern text ["create repo", "new repository"] then
      match extractRepoName text with
      | some repoName =>
        if repoName ≠ "" then
          invs ++ [{ toolName := "github_repo_create",
                     arguments := [("name", .str repoName), ("private", .bool false)],
                     description := "Creating repository " ++ sq repoName }]
        else invs
      | none => invs
    else invs
  let invs := if matchesPattern text ["list prs", "pull requests", "show prs", "open prs"] then
      match extractRepoReference text defaultOwner defaultRepo with
      | some repo =>
        invs ++ [{ toolName := "github_pr_list",
                   arguments := [("owner", .str repo.owner), ("repo", .str repo.name),
                                 ("state", .str "open")],
                   description := "Listing pull requests for " ++ repo.owner ++ "/" ++ repo.name }]
      | none => invs
    else invs
  let invs := if matchesPattern text ["create pr", "new pull request", "open pr"] then
      match extractRepoReference text defaultOwner defaultRepo with
      | some repo =>
        invs ++ [{ toolName := "github_pr_create",
                   arguments := [("owner", .str repo.owner), ("repo", .str repo.name),
                                 ("title", .str "New Pull Request"),
                                 ("head", .str "feature-branch"), ("base", .str "main")],
                   description := "Creating pull request for " ++ repo.owner ++ "/" ++ repo.name }]
      | none => invs
    else invs
  let invs := if matchesPattern text ["list issues", "show issues", "open issues"] then
      match extractRepoReference text defaultOwner defaultRepo with
      | some repo =>
        invs ++ [{ toolName := "github_issues_list",
                   arguments := [("owner", .str repo.owner), ("repo", .str repo.name),
                                 ("state", .str "open")],
                   description := "Listing issues for " ++ repo.owner ++ "/" ++ repo.name }]
      | none => invs
    else invs
  let invs := if matchesPattern text ["issue #", "issue number", "show issue", "get issue"] then
      match extractIssueNumber text, extractRepoReference text defaultOwner defaultRepo with
      | some n, some repo =>
        if n ≠ 0 then
          invs ++ [{ toolName := "github_issue_get",
                     arguments := [("owner", .str repo.owner), ("repo", .str repo.name),
                                   ("issue_number", .num n)],
                     description := "Getting issue #" ++ toString n ++ " from " ++
                       repo.owner ++ "/" ++ repo.name }]
        else invs
      | _, _ => invs
    else invs
  let invs := if matchesPattern text ["create issue", "new issue", "report bug"] then
      match extractRepoReference text defaultOwner defaultRepo with
      | some repo =>
        let title := extractIssueTitle text
        invs ++ [{ toolName := "github_issue_create",
                   arguments := [("owner", .str repo.owner), ("repo", .str repo.name),
                                 ("title", .str (match title with
                                   | some t => if t ≠ "" then t else "New Issue"
                                   | none => "New Issue")),
                                 ("body", .str "Created via Teams AI agent")],
                   description := "Creating issue in " ++ repo.owner ++ "/" ++ repo.name }]
      | none => invs
    else invs
  let invs := if matchesPattern text ["show file", "get file", "read file"] then
      match extractRepoReference text defaultOwner defaultRepo, extractFilePath text with
      | some repo, some f =>
        if f ≠ "" then
          invs ++ [{ toolName := "github_file_get",
                     arguments := [("owner", .str repo.owner), ("repo", .str repo.name),
                                   ("path", .str f)],
                     description := "Getting file " ++ f ++ " from " ++
                       repo.owner ++ "/" ++ repo.name }]
        else invs
      | _, _ => invs
    else invs
  let invs := if matchesPattern text ["my profile", "user info", "who am i"] then
      invs ++ [{ toolName := "github_user_get", arguments := [],
                 description := "Getting your GitHub profile information" }]
    else invs
  let invs := if invs.isEmpty && matchesPattern text ["github", "tools", "help", "what can you do"] then
      invs ++ [{ toolName := "_list_tools", arguments := [],
                 description := "Listing available GitHub tools" }]
    else invs
  invs

end GitHubToolParser

/-- `xs.slice(0, n)`. -/
def JSList.takeN : Nat → JSList → JSList
  | 0, _ => .nil
  | _, .nil => .nil
  | n + 1, .cons x tl => .cons x (JSList.takeN n tl)

namespace GitHubToolParser

/-- One line of `formatRepoList`'s `repos.map`: reading `repo.name` throws
on a `null`/`undefined` element. -/
def repoLine (repo : JSVal) : Except Unit String := do
  let nm ← jsPropE repo "name"
  let priv := jsProp repo "private"
  let desc := jsProp repo "description"
  let url := jsProp repo "html_url"
  .ok ("• **" ++ jsToString nm ++ "** " ++ (if jsTruthy priv then "🔒" else "🌍") ++
    "\n  " ++ (if jsTruthy desc then jsToString desc else "No description") ++
    "\n  " ++ jsToString url)

/-- Map a line renderer over array elements. -/
def mapLines (f : JSVal → Except Unit String) : JSList → Except Unit (List String)
  | .nil => .ok []
  | .cons x tl => do
    let s ← f x
    let rest ← mapLines f tl
    .ok (s :: rest)

/-- `formatRepoList(result)`: first 10 repositories with a
"showing K of N" header. -/
def formatRepoList (result : JSVal) : Except Unit String :=
  if !(jsTruthy result) || !(jsIsArray result) then .ok "No repositories found."
  else do
    let total := (arrElems result).len
    let repos := JSList.takeN 10 (arrElems result)
    let parts ← mapLines repoLine repos
    .ok ("📚 **Your Repositories** (showing " ++ toString repos.len ++
      (if total > 10 then " of " ++ toString total else "") ++ "):\n\n" ++
      String.intercalate "\n\n" parts)

/-- One line of `formatPullRequestList`'s `prs.map`. -/
def prLine (pr : JSVal) : Except Unit String := do
  let num ← jsPropE pr "number"
  let title := jsProp pr "title"
  let login := jsChain (jsProp pr "user") "login"
  let st := jsProp pr "state"
  let created := jsProp pr "created_at"
  let url := jsProp pr "html_url"
  .ok ("• **#" ++ jsToString num ++ "** " ++ jsToString title ++
    "\n  👤 " ++ jsToString login ++ " • " ++ jsToString st ++ " • " ++
    newDateToLocale created ++ "\n  " ++ jsToString url)

/-- `formatPullRequestList(result)`: first 5 pull requests. -/
def formatPullRequestList (result : JSVal) : Except Unit String :=
  if !(jsTruthy result) || !(jsIsArray result) then .ok "No pull requests found."
  else do
    let total := (arrElems result).len
    let prs := JSList.takeN 5 (arrElems result)
    let parts ← mapLines prLine prs
    .ok ("🔄 **Pull Requests** (showing " ++ toString prs.len ++
      (if total > 5 then " of " ++ toString total else "") ++ "):\n\n" ++
      String.intercalate "\n\n" parts)

/-- One line of `formatIssuesList`'s `issues.map`. -/
def issueLine (issue : JSVal) : Except Unit String := do
  let num ← jsPropE issue "number"
  let title := jsProp issue "title"
  let login := jsChain (jsProp issue "user") "login"
  let st := jsProp issue "state"
  let created := jsProp issue "created_at"
  let url := jsProp issue "html_url"
  .ok ("• **#" ++ jsToString num ++ "** " ++ jsToString title ++
    "\n  👤 " ++ jsToString login ++ " • " ++ jsToString st ++ " • " ++
    newDateToLocale created ++ "\n  " ++ jsToString url)

/-- `formatIssuesList(result)`: first 5 issues. -/
def formatIssuesList (result : JSVal) : Except Unit String :=
  if !(jsTruthy result) || !(jsIsArray result) then .ok "No issues found."
  else do
    let total := (arrElems result).len
    let issues := JSList.takeN 5 (arrElems result)
    let parts ← mapLines issueLine issues
    .ok ("🐛 **Issues** (showing " ++ toString issues.len ++
      (if total > 5 then " of " ++ toString total else "") ++ "):\n\n" ++
      String.intercalate "\n\n" parts)

/-- `issue.labels.map(label => "\x60" + label.name + "\x60")`: `.map` throws
on truthy non-arrays, `label.name` on `null`/`undefined` elements. -/
def mapLabelNames (labels : JSVal) : Except Unit (List String) :=
  match labels with
  | .arr xs => mapLines (fun label => do
      let nm ← jsPropE label "name"
      .ok ("`" ++ jsToString nm ++ "`")) xs
  | _ => .error ()

/-- `issue.assignees.map(a => "@" + a.login)`. -/
def mapAssignees (assignees : JSVal) : Except Unit (List String) :=
  match assignees with
  | .arr xs => mapLines (fun a => do
      let login ← jsPropE a "login"
      .ok ("@" ++ jsToString login)) xs
  | _ => .error ()

/-- `formatSingleIssue(result)`. -/
def formatSingleIssue (result : JSVal) : Except Unit String :=
  if !(jsTruthy result) then .ok "Could not retrieve issue."
  else do
    let createdDate := newDateToLocale (jsProp result "created_at")
    let updatedDate := newDateToLocale (jsProp result "updated_at")
    let body := jsProp result "body"
    let f0 := "🐛 **Issue #" ++ jsToString (jsProp result "number") ++ "**\n\n" ++
      "**" ++ jsToString (jsProp result "title") ++ "**\n\n" ++
      "📝 **Description:**\n" ++
      (if jsTruthy body then jsToString body else "No description provided") ++ "\n\n" ++
      "👤 **Author:** " ++ jsToString (jsChain (jsProp result "user") "login") ++ "\n" ++
      "📊 **State:** " ++ jsToString (jsProp result "state") ++ "\n" ++
      "📅 **Created:** " ++ createdDate ++ "\n" ++
      "🔄 **Updated:** " ++ updatedDate ++ "\n"
    let labels := jsProp result "labels"
    let f1 ←
      if jsTruthy labels && jsGTnum (jsLengthVal labels) 0 then do
        let ls ← mapLabelNames labels
        pure (f0 ++ "🏷️ **Labels:** " ++ String.intercalate " " ls ++ "\n")
      else pure f0
    let assignees := jsProp result "assignees"
    let f2 ←
      if jsTruthy assignees && jsGTnum (jsLengthVal assignees) 0 then do
        let as2 ← mapAssignees assignees
        pure (f1 ++ "👥 **Assignees:** " ++ String.intercalate ", " as2 ++ "\n")
      else pure f1
    .ok (f2 ++ "\n🔗 [View on GitHub](" ++ jsToString (jsProp result "html_url") ++ ")")

/-- `formatUserProfile(result)` (never throws past its truthiness guard). -/
def formatUserProfile (result : JSVal) : Except Unit String :=
  if !(jsTruthy result) then .ok "Could not retrieve user profile."
  else
    .ok ("👤 **GitHub Profile**\n\n" ++
      "**" ++ (if jsTruthy (jsProp result "name") then jsToString (jsProp result "name")
               else jsToString (jsProp result "login")) ++ "**\n" ++
      "@" ++ jsToString (jsProp result "login") ++ "\n" ++
      (if jsTruthy (jsProp result "bio") then jsToString (jsProp result "bio") else "No bio") ++
      "\n\n" ++
      "📍 " ++ (if jsTruthy (jsProp result "location") then jsToString (jsProp result "location")
                else "Location not specified") ++ "\n" ++
      "📊 " ++ (if jsTruthy (jsProp result "public_repos")
                then jsToString (jsProp result "public_repos") else "0") ++ " public repos • " ++
      (if jsTruthy (jsProp result "followers")
       then jsToString (jsProp result "followers") else "0") ++ " followers • " ++
      (if jsTruthy (jsProp result "following")
       then jsToString (jsProp result "following") else "0") ++ " following\n" ++
      "🔗 " ++ jsToString (jsProp result "html_url"))

/-- `formatToolsList(result)`: first 10 tools of `result.tools`. -/
def formatToolsList (result : JSVal) : Except Unit String :=
  if !(jsTruthy result) || !(jsTruthy (jsProp result "tools")) ||
      !(jsIsArray (jsProp result "tools")) then
    .ok "🛠️ **Available GitHub Tools**: Could not retrieve tool list."
  else do
    let allTools := arrElems (jsProp result "tools")
    let tools := JSList.takeN 10 allTools
    let parts ← mapLines (fun tool => do
        let nm ← jsPropE tool "name"
        let desc := jsProp tool "description"
        .ok ("• **" ++ jsToString nm ++ "**: " ++
          (if jsTruthy desc then jsToString desc else "No description"))) tools
    .ok ("🛠️ **Available GitHub Tools** (" ++ toString tools.len ++
      (if allTools.len > 10 then " of " ++ toString allTools.len else "") ++ "):\n\n" ++
      String.intercalate "\n" parts)

/-- The `try` block of `GitHubToolParser.formatToolResult`: the `switch`
on the tool name. -/
def formatToolResultTry (toolName : String) (result : JSVal) : Except Unit String :=
  if toolName = "github_repo_list" then formatRepoList result
  else if toolName = "github_pr_list" then formatPullRequestList result
  else if toolName = "github_issues_list" then formatIssuesList result
  else if toolName = "github_issue_get" then formatSingleIssue result
  else if toolName = "github_user_get" then formatUserProfile result
  else if toolName = "_list_tools" then formatToolsList result
  else .ok ("✅ Tool " ++ sq toolName ++ " executed successfully:\n```json\n" ++
    jsonTemplate result ++ "\n```")

/-- `GitHubToolParser.formatToolResult(toolName, result)`: the switch with
its `catch`, which degrades to the raw JSON. -/
def formatToolResult (toolName : String) (result : JSVal) : String :=
  match formatToolResultTry toolName result with
  | .ok s => s
  | .error _ =>
    "⚠️ Tool " ++ sq toolName ++ " completed but result formatting failed: " ++
      jsonTemplate result

end GitHubToolParser

/-! ## Token records (src/githubOAuth.ts, src/tokenStore.ts) -/

/-- `GitHubTokenInfo` — the stored credential record. -/
structure GitHubTokenInfo where
  access_token : String
  token_type : String
  scope : String
  obtained_at : Int

/-- `30 * 24 * 60 * 60 * 1000` milliseconds. -/
def thirtyDaysMs : Int := 30 * 24 * 60 * 60 * 1000

namespace GithubOAuth

/-- `isTokenValid(tokenInfo)` with `Date.now()` passed explicitly:
`tokenInfo.obtained_at > Date.now() - 30*24*60*60*1000`. -/
def isTokenValid (now : Int) (tokenInfo : GitHubTokenInfo) : Bool :=
  tokenInfo.obtained_at > now - thirtyDaysMs

end GithubOAuth

namespace TokenStore

/-- `getStoredToken(userId)` over the in-memory `Map` (embedded as an
association list): `tokenStore.get(userId) || null`. -/
def getStoredToken (store : List (String × GitHubTokenInfo)) (userId : String) :
    Option GitHubTokenInfo :=
  match store.find? (fun p => p.1 = userId) with
  | some p => some p.2
  | none => none

/-- `hasValidToken(userId)` with `Date.now()` passed explicitly: false on
a missing record, else the same age check as `isTokenValid`. -/
def hasValidToken (now : Int) (store : List (String × GitHubTokenInfo))
    (userId : String) : Bool :=
  match getStoredToken store userId with
  | none => false
  | some tokenInfo => tokenInfo.obtained_at > now - thirtyDaysMs

end TokenStore

/-! ## The message handler (src/app/app.ts) -/

namespace TeamsApp

/-- One resolved tool call of the keyword resolver. -/
structure ToolCallReq where
  toolName : String
  parameters : List (String × JSVal)
  reasoning : String

/-- The `aiDecision` record. -/
structure AIDecision where
  toolCalls : List ToolCallReq
  needsMoreInfo : Bool
  missingInfo : Option String

/-- A `process.env` value as a JS value (`undefined` when unset). -/
def optStrVal : Option String → JSVal
  | some s => .str s
  | none => .undefined

/-- `s.split('_')`. -/
def splitOnChar (sep : Char) : List Char → List (List Char)
  | [] => [[]]
  | c :: tl =>
    if c = sep then [] :: splitOnChar sep tl
    else
      match splitOnChar sep tl with
      | [] => [[c]]
      | w :: ws => (c :: w) :: ws

/-- `tool.name.toLowerCase().split('_')`. -/
def splitUnderscore (s : String) : List String :=
  (splitOnChar '_' s.toList).map String.mk

mutual

/-- `s.split(/\s+/)`, inside a word: emit the accumulated word at each
separator run (so leading/trailing whitespace yields empty pieces, and
runs of whitespace count once, as in JS). -/
def splitWsGo (cur : List Char) : List Char → List (List Char)
  | [] => [cur.reverse]
  | c :: tl =>
    if GitHubToolParser.isSpaceJS c then cur.reverse :: splitWsSkip tl
    else splitWsGo (c :: cur) tl

/-- `s.split(/\s+/)`, inside a separator run. -/
def splitWsSkip : List Char → List (List Char)
  | [] => [[]]
  | c :: tl =>
    if GitHubToolParser.isSpaceJS c then splitWsSkip tl
    else splitWsGo [c] tl

end

/-- `normalizedRequest.split(/\s+/)`. -/
def splitWsJS (s : String) : List String :=
  (splitWsGo [] s.toList).map String.mk

/-- The relevance predicate of the resolver's fallback:
`toolWords.some(word => requestWords.some(rword => rword.includes(word)))`. -/
def relevantPred (nr : String) (t : GitHubMcpService.GitHubTool) : Bool :=
  (splitUnderscore (GitHubToolParser.toLowerStr t.name)).any (fun w =>
    (splitWsJS nr).any (fun rw => GitHubToolParser.hasSub rw w))

/-- Leftmost match of `/#(\d+)/`, returning the captured digit characters
(the resolver interpolates them verbatim and `parseInt`s them). -/
def scanHash : List Char → Option (List Char)
  | [] => none
  | '#' :: rest =>
    let (ds, _) := rest.span GitHubToolParser.isDigitC
    if ds.isEmpty then scanHash rest else some ds
  | _ :: tl => scanHash tl

/-- The keyword-based tool resolver of the `app.message` handler
(`app.ts`, the "Simple keyword-based tool selection" block), with the
catalog and the environment defaults passed explicitly.  A branch's
`availableTools.find(...)?.name || fallback` is modelled with the same
truthiness (an empty found name falls back).  If no branch produced a
call, the decision is normalized to `needsMoreInfo` with the fixed
missing-information text. -/
def keywordResolve (userRequest : String) (tools : List GitHubMcpService.GitHubTool)
    (defaultOwner defaultRepo : Option String) : AIDecision :=
  let nr := GitHubToolParser.toLowerStr userRequest
  let toolCalls : List ToolCallReq :=
    if GitHubToolParser.hasSub nr "issue" && GitHubToolParser.hasSub nr "#" then
      match scanHash nr.toList with
      | some ds =>
        let found := match tools.find? (fun t =>
            GitHubToolParser.hasSub t.name "issue" && GitHubToolParser.hasSub t.name "get") with
          | some t => t.name
          | none => ""
        let nm := if found = "" then "get_issue" else found
        [{ toolName := nm,
           parameters := [("owner", optStrVal defaultOwner), ("repo", optStrVal defaultRepo),
                          ("issue_number", .num (GitHubToolParser.digitsToNat ds))],
           reasoning := "Getting issue #" ++ String.mk ds }]
      | none => []
    else if GitHubToolParser.hasSub nr "available" && GitHubToolParser.hasSub nr "tool" then
      []
    else if GitHubToolParser.hasSub nr "list" && GitHubToolParser.hasSub nr "repo" then
      let found := match tools.find? (fun t =>
          GitHubToolParser.hasSub t.name "repo" && GitHubToolParser.hasSub t.name "list") with
        | some t => t.name
        | none => ""
      let nm := if found = "" then "list_repos" else found
      [{ toolName := nm, parameters := [], reasoning := "Listing repositories" }]
    else
      match tools.find? (relevantPred nr) with
      | some t =>
        let params : List (String × JSVal) :=
          match defaultOwner, defaultRepo with
          | some o, some r =>
            if o ≠ "" && r ≠ "" then [("owner", .str o), ("repo", .str r)] else []
          | _, _ => []
        [{ toolName := t.name, parameters := params,
           reasoning := "Using " ++ t.name ++ " based on your request" }]
      | none => []
  if toolCalls.isEmpty then
    { toolCalls := toolCalls, needsMoreInfo := true,
      missingInfo := some "I need more specific information about what GitHub operation you want to perform." }
  else
    { toolCalls := toolCalls, needsMoreInfo := false, missingInfo := none }

/-- The sequential tool-execution loop of the handler:
`for (const toolCall of aiDecision.toolCalls) results.push(await
githubService.executeTool(toolCall.toolName, toolCall.parameters))`. -/
def runToolCalls (callTool : String → List (String × JSVal) → Except String JSVal)
    (calls : List ToolCallReq) : List GitHubMcpService.GitHubToolResult :=
  calls.map (fun c => GitHubMcpService.executeTool callTool c.toolName c.parameters)

end TeamsApp

/-! ## Concrete payloads used by the theorems -/

/-- A pull-request payload: truthy `number`, `title` and `head`, with
`head.ref`/`base.ref` present. -/
def prPayload : JSVal :=
  .obj (JSFields.ofList
    [("number", .num 42), ("title", .str "Add feature"), ("state", .str "open"),
     ("user", .obj (JSFields.ofList [("login", .str "octocat")])),
     ("head", .obj (JSFields.ofList [("ref", .str "feature")])),
     ("base", .obj (JSFields.ofList [("ref", .str "main")])),
     ("created_at", .str "2024-01-15"),
     ("html_url", .str "https://github.com/octocat/demo/pull/42")])

/-- What `formatSingleItem` actually renders for `prPayload`: the issue
template (first guard `number && title`), not the pull-request template. -/
def prPayloadRendering : String :=
  "**#42: Add feature**\nStatus: open\nAuthor: octocat\nCreated: <date:2024-01-15>" ++
    "\n\n\n🔗 [View on GitHub](https://github.com/octocat/demo/pull/42)"

/-- An MCP content envelope carrying one text item. -/
def envelopePayload : JSVal :=
  .obj (JSFields.ofList
    [("content", .arr (JSList.ofList
      [.obj (JSFields.ofList [("type", .str "text"), ("text", .str "hi")])]))])

/-- A partial issue object with no `user` field. -/
def partialIssue : JSVal :=
  .obj (JSFields.ofList [("number", .num 5), ("title", .str "Bug"), ("state", .str "open")])

/-- A deeply nested object matching none of the known shapes. -/
def deepNested : JSVal :=
  .obj (JSFields.ofList [("a", .obj (JSFields.ofList [("b", .arr (JSList.ofList [.num 1]))]))])

/-! ## Theorems -/

/-- C4: for every token record, `isTokenValid` — and `hasValidToken` for a
stored record — is true iff `now - obtained_at < 30 days` (in
milliseconds); a record obtained 31 days ago is invalid, and
`hasValidToken` is false when no record is stored for the user. -/
theorem c4_token_validity_thirty_days :
    (∀ (now : Int) (t : GitHubTokenInfo),
        GithubOAuth.isTokenValid now t = true ↔ now - t.obtained_at < thirtyDaysMs) ∧
    (∀ (now : Int) (store : List (String × GitHubTokenInfo)) (uid : String)
        (t : GitHubTokenInfo),
        TokenStore.getStoredToken store uid = some t →
        (TokenStore.hasValidToken now store uid = true ↔ now - t.obtained_at < thirtyDaysMs)) ∧
    (∀ (now : Int) (tok ty sc : String),
        GithubOAuth.isTokenValid now
          { access_token := tok, token_type := ty, scope := sc,
            obtained_at := now - 31 * 24 * 60 * 60 * 1000 } = false) ∧
    (∀ (now : Int) (store : List (String × GitHubTokenInfo)) (uid : String),
        TokenStore.getStoredToken store uid = none →
        TokenStore.hasValidToken now store uid = false) := by
  refine ⟨?_, ?_, ?_, ?_⟩
  · intro now t
    simp only [GithubOAuth.isTokenValid, decide_eq_true_eq, thirtyDaysMs]
    omega
  · intro now store uid t h
    simp only [TokenStore.hasValidToken, h, decide_eq_true_eq, thirtyDaysMs]
    omega
  · intro now tok ty sc
    simp only [GithubOAuth.isTokenValid, thirtyDaysMs, decide_eq_false_iff_not]
    omega
  · intro now store uid h
    simp [TokenStore.hasValidToken, h]

/-- C4 witness: the validity check evaluated at concrete records — a
13-day-old record stored for "u" is valid, and an unknown user has no
valid token. -/
theorem c4_token_validity_thirty_days_witness :
    (TokenStore.getStoredToken
        [("u", { access_token := "tok", token_type := "bearer", scope := "repo",
                 obtained_at := 2000000000 })] "u" =
      some { access_token := "tok", token_type := "bearer", scope := "repo",
             obtained_at := 2000000000 }) ∧
    (TokenStore.hasValidToken 3100000000
        [("u", { access_token := "tok", token_type := "bearer", scope := "repo",
                 obtained_at := 2000000000 })] "u" = true ↔
      (3100000000 : Int) - 2000000000 < thirtyDaysMs) ∧
    (TokenStore.getStoredToken [] "v" = none) ∧
    (TokenStore.hasValidToken 5 [] "v" = false) :=
  ⟨rfl,
   c4_token_validity_thirty_days.2.1 3100000000
     [("u", { access_token := "tok", token_type := "bearer", scope := "repo",
              obtained_at := 2000000000 })] "u"
     { access_token := "tok", token_type := "bearer", scope := "repo",
       obtained_at := 2000000000 } rfl,
   rfl,
   c4_token_validity_thirty_days.2.2.2 5 [] "v" rfl⟩

/-- C5: "Show issue #68 in octocat/hello-world" resolves — for every
environment-default configuration — to exactly one invocation of
`github_issue_get` with `owner=octocat`, `repo=hello-world`,
`issue_number=68`; no other category contributes an invocation. -/
theorem c5_issue68_single_invocation :
    ∀ (defaultOwner defaultRepo : Option String),
      GitHubToolParser.parseUserIntent "Show issue #68 in octocat/hello-world"
          defaultOwner defaultRepo =
        [{ toolName := "github_issue_get",
           arguments := [("owner", .str "octocat"), ("repo", .str "hello-world"),
                         ("issue_number", .num 68)],
           description := "Getting issue #68 from octocat/hello-world" }] :=
  fun _ _ => rfl

/-- C10: for "show issue #0 in octocat/hello-world" no invocation is
produced (so in particular no `github_issue_get` one), although the
issue-number pattern does match — extracting 0 — and a repository
reference is present: the `if (issueNumber && repo)` guard treats the
falsy number 0 as a failed extraction. -/
theorem c10_issue_zero_dropped :
    (∀ (defaultOwner defaultRepo : Option String),
        GitHubToolParser.parseUserIntent "show issue #0 in octocat/hello-world"
          defaultOwner defaultRepo = []) ∧
    GitHubToolParser.extractIssueNumber "show issue #0 in octocat/hello-world" = some 0 ∧
    (∀ (defaultOwner defaultRepo : Option String),
        GitHubToolParser.extractRepoReference "show issue #0 in octocat/hello-world"
          defaultOwner defaultRepo = some { owner := "octocat", name := "hello-world" }) ∧
    GitHubToolParser.matchesPattern "show issue #0 in octocat/hello-world"
      ["issue #", "issue number", "show issue", "get issue"] = true :=
  ⟨fun _ _ => rfl, rfl, fun _ _ => rfl, rfl⟩

/-- C8: a failed first catalog load returns the empty list, marks the
catalog loaded and counts one `listTools` call; any loaded instance
answers from the cache with zero `listTools` calls — in particular every
call after the failed first load returns the cached empty list without
retrying. -/
theorem c8_failed_load_cached_not_retried :
    (∀ (e : String),
        GitHubMcpService.getAvailableTools (.error e)
          { availableTools := [], toolsLoaded := false } =
        ([], { availableTools := [], toolsLoaded := true }, 1)) ∧
    (∀ (r : Except String JSVal) (s : GitHubMcpService.McpServiceState),
        s.toolsLoaded = true →
        GitHubMcpService.getAvailableTools r s = (s.availableTools, s, 0)) ∧
    (∀ (e : String) (r2 : Except String JSVal),
        GitHubMcpService.getAvailableTools r2
            ((GitHubMcpService.getAvailableTools (.error e)
              { availableTools := [], toolsLoaded := false }).2.1) =
          ([], { availableTools := [], toolsLoaded := true }, 0)) := by
  refine ⟨fun e => rfl, ?_, fun e r2 => rfl⟩
  intro r s h
  simp [GitHubMcpService.getAvailableTools, h]

/-- C8 witness: the cache hit evaluated on a concrete loaded state. -/
theorem c8_failed_load_cached_not_retried_witness :
    (GitHubMcpService.McpServiceState.toolsLoaded
        { availableTools := [], toolsLoaded := true } = true) ∧
    GitHubMcpService.getAvailableTools (.error "network down")
        { availableTools := [], toolsLoaded := true } =
      ([], { availableTools := [], toolsLoaded := true }, 0) :=
  ⟨rfl, c8_failed_load_cached_not_retried.2.1 (.error "network down")
    { availableTools := [], toolsLoaded := true } rfl⟩

/-- C1: evaluating `formatSingleItem` (the single-item path of
`formatToolResult`) at a pull-request payload — truthy `number`, `title`
and `head`, with both refs present — renders the issue template: the
output is the `**#42: ...**` issue header with no branch arrow and no
`**PR #` header, because the issue guard (`number && title`) precedes and
subsumes the pull-request guard (`number && title && head`), leaving the
pull-request branch unreachable. -/
theorem c1_pr_shape_renders_issue_template :
    GitHubMcpService.formatSingleItem prPayload = .ok prPayloadRendering ∧
    GitHubMcpService.formatToolResult "github_pr_get" prPayload = prPayloadRendering ∧
    GitHubToolParser.hasSub prPayloadRendering "feature → main" = false ∧
    GitHubToolParser.hasSub prPayloadRendering "**PR #" = false ∧
    GitHubToolParser.hasSub prPayloadRendering "**#42: Add feature**" = true :=
  ⟨rfl, rfl, rfl, rfl, rfl⟩

/-- C2 counterexample: formatting the length-1 array `[envelopePayload]`
does NOT produce the same string as formatting `envelopePayload` directly
— the direct call takes the MCP-envelope branch ("hi") while the array
branch formats the element as a single item ("content: [object
Object]"). -/
theorem c2_singleton_array_differs_from_direct :
    GitHubMcpService.formatToolResult "tool_x" (.arr (.cons envelopePayload .nil)) ≠
      GitHubMcpService.formatToolResult "tool_x" envelopePayload ∧
    GitHubMcpService.formatToolResult "tool_x" envelopePayload = "hi" ∧
    GitHubMcpService.formatToolResult "tool_x" (.arr (.cons envelopePayload .nil)) =
      "content: [object Object]" :=
  ⟨by decide, rfl, rfl⟩

/-- The numbered blocks the spec expects for an array of length ≥ 2:
each element's rendering prefixed by its 1-based index. -/
def numberedBlocks (i : Nat) : List String → List String
  | [] => []
  | s :: tl => ("**Item " ++ toString (i + 1) ++ ":**\n" ++ s) :: numberedBlocks (i + 1) tl

/-- Rendering every element of a list through `formatSingleItem`
(spec-side counterpart of the code's `result.map`). -/
def formatAllItems : List JSVal → Except Unit (List String)
  | [] => .ok []
  | v :: tl =>
    match GitHubMcpService.formatSingleItem v, formatAllItems tl with
    | .ok s, .ok rest => .ok (s :: rest)
    | .ok _, .error u => .error u
    | .error u, _ => .error u

/-- The code's indexed map (`numberedItems`) produces exactly the
spec-side numbered blocks when every element renders. -/
theorem numberedItems_eq_of_all : ∀ (xs : JSList) (ss : List String) (i : Nat),
    formatAllItems xs.toList = .ok ss →
    GitHubMcpService.numberedItems i xs = .ok (numberedBlocks i ss)
  | .nil, ss, i, h => by
      simp [JSList.toList, formatAllItems] at h
      subst h
      rfl
  | .cons x tl, ss, i, h => by
      rw [JSList.toList] at h
      cases hx : GitHubMcpService.formatSingleItem x with
      | error u => simp [formatAllItems, hx] at h
      | ok s0 =>
        cases hrest : formatAllItems tl.toList with
        | error u => simp [formatAllItems, hx, hrest] at h
        | ok rs =>
          simp [formatAllItems, hx, hrest] at h
          subst h
          have ihr := numberedItems_eq_of_all tl rs (i + 1) hrest
          simp only [GitHubMcpService.numberedItems, hx, ihr, numberedBlocks]
          rfl

/-- C2 (amended): formatting an array of length 1 returns exactly the
single-item rendering (`formatSingleItem`) of its element, with no
"Item 1:" prefix — which can differ from `formatToolResult` applied to
the element directly (see the counterexample); formatting an array of
length ≥ 2 whose elements all render prefixes each element's rendering
with its 1-based "**Item N:**" header. -/
theorem c2_array_formatting_amended :
    (∀ (name : String) (x : JSVal) (s : String),
        GitHubMcpService.formatSingleItem x = .ok s →
        GitHubMcpService.formatToolResult name (.arr (.cons x .nil)) = s) ∧
    (∀ (name : String) (xs : JSList) (ss : List String),
        2 ≤ xs.len →
        formatAllItems xs.toList = .ok ss →
        GitHubMcpService.formatToolResult name (.arr xs) =
          String.intercalate "\n\n" (numberedBlocks 0 ss)) := by
  constructor
  · intro name x s h
    simp [GitHubMcpService.formatToolResult, GitHubMcpService.formatToolResultTry,
      jsChain, jsProp, jsTruthy, jsTypeofObject, h]
  · intro name xs ss hlen hmap
    match xs, hlen with
    | .cons a (.cons b tl), _ =>
      have hnum := numberedItems_eq_of_all (JSList.cons a (JSList.cons b tl)) ss 0 hmap
      simp [GitHubMcpService.formatToolResult, GitHubMcpService.formatToolResultTry,
        jsChain, jsProp, jsTruthy, jsTypeofObject, hnum]
      rfl

/-- C2 witness: the amended theorem applied to a concrete length-1 array
and a concrete length-2 array. -/
theorem c2_array_formatting_amended_witness :
    (GitHubMcpService.formatSingleItem partialIssue = .ok "**#5: Bug**\nStatus: open\n") ∧
    GitHubMcpService.formatToolResult "t" (.arr (.cons partialIssue .nil)) =
      "**#5: Bug**\nStatus: open\n" ∧
    (2 ≤ JSList.len (JSList.ofList [partialIssue, deepNested])) ∧
    (formatAllItems (JSList.ofList [partialIssue, deepNested]).toList =
      .ok ["**#5: Bug**\nStatus: open\n", "a: [object Object]"]) ∧
    GitHubMcpService.formatToolResult "t" (.arr (JSList.ofList [partialIssue, deepNested])) =
      String.intercalate "\n\n"
        (numberedBlocks 0 ["**#5: Bug**\nStatus: open\n", "a: [object Object]"]) :=
  ⟨rfl,
   c2_array_formatting_amended.1 "t" partialIssue "**#5: Bug**\nStatus: open\n" rfl,
   by decide,
   rfl,
   c2_array_formatting_amended.2 "t" (JSList.ofList [partialIssue, deepNested])
     ["**#5: Bug**\nStatus: open\n", "a: [object Object]"] (by decide) rfl⟩

/-- C3: in a batch of three invocations where the underlying tool call
fails on the second and succeeds on the first and third, the execution
loop runs all three, the result list preserves input order, and exactly
one entry has `success := false`, carrying the failing tool's name and
error message; the third invocation is still executed and reported. -/
theorem c3_batch_partial_failure :
    ∀ (callTool : String → List (String × JSVal) → Except String JSVal)
      (a b c : TeamsApp.ToolCallReq) (d1 d3 : JSVal) (e : String),
      callTool a.toolName a.parameters = .ok d1 →
      callTool b.toolName b.parameters = .error e →
      callTool c.toolName c.parameters = .ok d3 →
      TeamsApp.runToolCalls callTool [a, b, c] =
        [{ success := true, data := some d1, error := none, toolName := a.toolName,
           formattedResult := some (GitHubMcpService.formatToolResult a.toolName d1) },
         { success := false, data := none, error := some e, toolName := b.toolName,
           formattedResult := none },
         { success := true, data := some d3, error := none, toolName := c.toolName,
           formattedResult := some (GitHubMcpService.formatToolResult c.toolName d3) }] ∧
      (TeamsApp.runToolCalls callTool [a, b, c]).length = 3 ∧
      ((TeamsApp.runToolCalls callTool [a, b, c]).filter
        (fun r => !r.success)).length = 1 := by
  intro callTool a b c d1 d3 e h1 h2 h3
  have hrun : TeamsApp.runToolCalls callTool [a, b, c] =
      [{ success := true, data := some d1, error := none, toolName := a.toolName,
         formattedResult := some (GitHubMcpService.formatToolResult a.toolName d1) },
       { success := false, data := none, error := some e, toolName := b.toolName,
         formattedResult := none },
       { success := true, data := some d3, error := none, toolName := c.toolName,
         formattedResult := some (GitHubMcpService.formatToolResult c.toolName d3) }] := by
    simp [TeamsApp.runToolCalls, GitHubMcpService.executeTool, h1, h2, h3]
  refine ⟨hrun, by rw [hrun]; rfl, by rw [hrun]; rfl⟩

/-- A concrete call oracle failing exactly on tool "t2". -/
def c3Oracle : String → List (String × JSVal) → Except String JSVal :=
  fun n _ =>
    if n = "t2" then .error "boom"
    else if n = "t3" then .ok (.num 7)
    else .ok .null

/-- C3 witness: the batch theorem applied to a concrete oracle and three
concrete invocations. -/
theorem c3_batch_partial_failure_witness :
    (c3Oracle "t1" [] = .ok .null) ∧
    (c3Oracle "t2" [] = .error "boom") ∧
    (c3Oracle "t3" [] = .ok (.num 7)) ∧
    (TeamsApp.runToolCalls c3Oracle
        [{ toolName := "t1", parameters := [], reasoning := "r1" },
         { toolName := "t2", parameters := [], reasoning := "r2" },
         { toolName := "t3", parameters := [], reasoning := "r3" }] =
      [{ success := true, data := some .null, error := none, toolName := "t1",
         formattedResult := some (GitHubMcpService.formatToolResult "t1" .null) },
       { success := false, data := none, error := some "boom", toolName := "t2",
         formattedResult := none },
       { success := true, data := some (.num 7), error := none, toolName := "t3",
         formattedResult := some (GitHubMcpService.formatToolResult "t3" (.num 7)) }] ∧
      (TeamsApp.runToolCalls c3Oracle
        [{ toolName := "t1", parameters := [], reasoning := "r1" },
         { toolName := "t2", parameters := [], reasoning := "r2" },
         { toolName := "t3", parameters := [], reasoning := "r3" }]).length = 3 ∧
      ((TeamsApp.runToolCalls c3Oracle
        [{ toolName := "t1", parameters := [], reasoning := "r1" },
         { toolName := "t2", parameters := [], reasoning := "r2" },
         { toolName := "t3", parameters := [], reasoning := "r3" }]).filter
          (fun r => !r.success)).length = 1) :=
  ⟨rfl, rfl, rfl,
   c3_batch_partial_failure c3Oracle
     { toolName := "t1", parameters := [], reasoning := "r1" }
     { toolName := "t2", parameters := [], reasoning := "r2" }
     { toolName := "t3", parameters := [], reasoning := "r3" }
     .null (.num 7) "boom" rfl rfl rfl⟩

/-- C6: result formatting is total — for every input either the `try`
body yields a string and that string is returned, or the internal
formatting exception is caught and the raw JSON is emitted instead (for
both formatters); in particular `null`, the empty array, a deeply nested
object and a partial issue object with no `user` field each format to a
concrete string. -/
theorem c6_result_formatting_total :
    (∀ (name : String) (v : JSVal),
        (∃ s, GitHubMcpService.formatToolResultTry v = .ok s ∧
              GitHubMcpService.formatToolResult name v = s) ∨
        (GitHubMcpService.formatToolResultTry v = .error () ∧
         GitHubMcpService.formatToolResult name v = "Raw result: " ++ jsonTemplate v)) ∧
    (∀ (name : String) (v : JSVal),
        (∃ s, GitHubToolParser.formatToolResultTry name v = .ok s ∧
              GitHubToolParser.formatToolResult name v = s) ∨
        (GitHubToolParser.formatToolResultTry name v = .error () ∧
         GitHubToolParser.formatToolResult name v =
           "⚠️ Tool " ++ GitHubToolParser.sq name ++
             " completed but result formatting failed: " ++ jsonTemplate v)) ∧
    GitHubMcpService.formatToolResult "t" .null = "null" ∧
    GitHubMcpService.formatToolResult "t" (.arr .nil) = "No results found." ∧
    GitHubMcpService.formatToolResult "t" deepNested = "a: [object Object]" ∧
    GitHubMcpService.formatToolResult "t" partialIssue = "**#5: Bug**\nStatus: open\n" ∧
    GitHubToolParser.formatToolResult "github_issue_get" partialIssue =
      "🐛 **Issue #5**\n\n**Bug**\n\n📝 **Description:**\nNo description provided\n\n👤 **Author:** undefined\n📊 **State:** open\n📅 **Created:** <date:undefined>\n🔄 **Updated:** <date:undefined>\n\n🔗 [View on GitHub](undefined)" ∧
    GitHubToolParser.formatToolResult "github_issue_get" .null = "Could not retrieve issue." := by
  refine ⟨?_, ?_, rfl, rfl, rfl, rfl, rfl, rfl⟩
  · intro name v
    cases h : GitHubMcpService.formatToolResultTry v with
    | ok s => exact Or.inl ⟨s, rfl, by simp [GitHubMcpService.formatToolResult, h]⟩
    | error u => cases u; exact Or.inr ⟨rfl, by simp [GitHubMcpService.formatToolResult, h]⟩
  · intro name v
    cases h : GitHubToolParser.formatToolResultTry name v with
    | ok s => exact Or.inl ⟨s, rfl, by simp [GitHubToolParser.formatToolResult, h]⟩
    | error u => cases u; exact Or.inr ⟨rfl, by simp [GitHubToolParser.formatToolResult, h]⟩

/-- C7: a request whose lowercased text matches none of the keyword
branches and shares no tool-name token with any catalog tool resolves to
the needs-more-information outcome: no tool calls, `needsMoreInfo = true`
and the fixed human-readable missing-information text. -/
theorem c7_no_match_needs_more_info :
    ∀ (userRequest : String) (tools : List GitHubMcpService.GitHubTool)
      (defaultOwner defaultRepo : Option String),
      (GitHubToolParser.hasSub (GitHubToolParser.toLowerStr userRequest) "issue" &&
        GitHubToolParser.hasSub (GitHubToolParser.toLowerStr userRequest) "#") = false →
      (GitHubToolParser.hasSub (GitHubToolParser.toLowerStr userRequest) "available" &&
        GitHubToolParser.hasSub (GitHubToolParser.toLowerStr userRequest) "tool") = false →
      (GitHubToolParser.hasSub (GitHubToolParser.toLowerStr userRequest) "list" &&
        GitHubToolParser.hasSub (GitHubToolParser.toLowerStr userRequest) "repo") = false →
      (∀ t ∈ tools, ∀ w ∈ TeamsApp.splitUnderscore (GitHubToolParser.toLowerStr t.name),
          ∀ rw ∈ TeamsApp.splitWsJS (GitHubToolParser.toLowerStr userRequest),
          GitHubToolParser.hasSub rw w = false) →
      TeamsApp.keywordResolve userRequest tools defaultOwner defaultRepo =
        { toolCalls := [], needsMoreInfo := true,
          missingInfo := some "I need more specific information about what GitHub operation you want to perform." } := by
  intro req tools eo er h1 h2 h3 h4
  have hfind : tools.find? (TeamsApp.relevantPred (GitHubToolParser.toLowerStr req)) = none := by
    rw [List.find?_eq_none]
    intro t ht hcontra
    simp only [TeamsApp.relevantPred, List.any_eq_true] at hcontra
    obtain ⟨w, hw, rw2, hrw, hsub⟩ := hcontra
    rw [h4 t ht w hw rw2 hrw] at hsub
    exact Bool.noConfusion hsub
  simp [TeamsApp.keywordResolve, h1, h2, h3, hfind]

/-- A one-tool catalog for the C7 witness. -/
def c7Tools : List GitHubMcpService.GitHubTool :=
  [{ name := "github_issue_get", description := "Get an issue", inputSchema := .obj .nil }]

/-- C7 witness: the request "please summarize" against the one-tool
catalog hits every hypothesis and resolves to needs-more-information. -/
theorem c7_no_match_needs_more_info_witness :
    ((GitHubToolParser.hasSub (GitHubToolParser.toLowerStr "please summarize") "issue" &&
      GitHubToolParser.hasSub (GitHubToolParser.toLowerStr "please summarize") "#") = false) ∧
    ((GitHubToolParser.hasSub (GitHubToolParser.toLowerStr "please summarize") "available" &&
      GitHubToolParser.hasSub (GitHubToolParser.toLowerStr "please summarize") "tool") = false) ∧
    ((GitHubToolParser.hasSub (GitHubToolParser.toLowerStr "please summarize") "list" &&
      GitHubToolParser.hasSub (GitHubToolParser.toLowerStr "please summarize") "repo") = false) ∧
    (∀ t ∈ c7Tools, ∀ w ∈ TeamsApp.splitUnderscore (GitHubToolParser.toLowerStr t.name),
        ∀ rw ∈ TeamsApp.splitWsJS (GitHubToolParser.toLowerStr "please summarize"),
        GitHubToolParser.hasSub rw w = false) ∧
    TeamsApp.keywordResolve "please summarize" c7Tools none none =
      { toolCalls := [], needsMoreInfo := true,
        missingInfo := some "I need more specific information about what GitHub operation you want to perform." } :=
  ⟨by decide, by decide, by decide, by decide,
   c7_no_match_needs_more_info "please summarize" c7Tools none none
     (by decide) (by decide) (by decide) (by decide)⟩

/-- C9 counterexample: an interleaving in which both concurrent
`getAvailableTools()` calls pass the `toolsLoaded` check before either
load completes issues TWO underlying `listTools()` calls — both calls
finish, and the claimed bound of at most one call is violated. -/
theorem c9_interleaving_issues_two_list_calls :
    (GitHubMcpService.runSched (.ok (.obj .nil)) [true, false, true, false]
        GitHubMcpService.freshConc).listCalls = 2 ∧
    (GitHubMcpService.runSched (.ok (.obj .nil)) [true, false, true, false]
        GitHubMcpService.freshConc).phase1 = .finished ∧
    (GitHubMcpService.runSched (.ok (.obj .nil)) [true, false, true, false]
        GitHubMcpService.freshConc).phase2 = .finished ∧
    ¬((GitHubMcpService.runSched (.ok (.obj .nil)) [true, false, true, false]
        GitHubMcpService.freshConc).listCalls ≤ 1) :=
  ⟨rfl, rfl, rfl, by decide⟩

/-- Pending-call weight: a call that has not yet passed the
`toolsLoaded` test may still issue one `listTools()` call. -/
def phaseW : GitHubMcpService.CallPhase → Nat
  | .ready => 1
  | .awaiting => 0
  | .finished => 0

/-- Issued calls plus the calls the two in-flight invocations may still
issue. -/
def concPotential (st : GitHubMcpService.ConcState) : Nat :=
  st.listCalls + phaseW st.phase1 + phaseW st.phase2

/-- One scheduler step never increases the potential. -/
theorem stepConc_potential_le (r : Except String JSVal) (st : GitHubMcpService.ConcState)
    (b : Bool) : concPotential (GitHubMcpService.stepConc r st b) ≤ concPotential st := by
  rcases st with ⟨svc, n, p1, p2⟩
  cases b <;> cases p1 <;> cases p2 <;> cases hl : svc.toolsLoaded <;>
    simp [GitHubMcpService.stepConc, GitHubMcpService.stepPhase, concPotential, phaseW, hl]

/-- Running any schedule never increases the potential. -/
theorem runSched_potential_le (r : Except String JSVal) (sched : List Bool) :
    ∀ st : GitHubMcpService.ConcState,
      concPotential (GitHubMcpService.runSched r sched st) ≤ concPotential st := by
  induction sched with
  | nil => intro st; simp [GitHubMcpService.runSched]
  | cons b rest ih =>
    intro st
    calc concPotential (GitHubMcpService.runSched r rest (GitHubMcpService.stepConc r st b)) ≤
        concPotential (GitHubMcpService.stepConc r st b) := ih _
      _ ≤ concPotential st := stepConc_potential_le r st b

/-- `loadAvailableTools` always marks the catalog loaded, whatever the
`listTools` outcome. -/
theorem loadAvailableTools_loaded (r : Except String JSVal) :
    (GitHubMcpService.loadAvailableTools r).toolsLoaded = true := by
  cases r with
  | error e => rfl
  | ok resp =>
    simp only [GitHubMcpService.loadAvailableTools]
    split
    · split <;> rfl
    · rfl

/-- C9 (amended): concurrent `getAvailableTools()` calls do not share an
in-flight load — each call that observes `toolsLoaded = false` issues its
own `listTools()` call, so two concurrent calls on a never-loaded
instance issue at most two (not at most one) underlying calls, with two
reached by the interleaving counterexample; when the calls run
sequentially (the second starts after the first completes), only one
`listTools()` call is issued, for every load outcome. -/
theorem c9_concurrent_load_amended :
    (∀ (r : Except String JSVal) (sched : List Bool),
        (GitHubMcpService.runSched r sched GitHubMcpService.freshConc).listCalls ≤ 2) ∧
    (∀ (r : Except String JSVal),
        (GitHubMcpService.runSched r [true, true, false]
            GitHubMcpService.freshConc).listCalls = 1 ∧
        (GitHubMcpService.runSched r [true, true, false]
            GitHubMcpService.freshConc).phase1 = .finished ∧
        (GitHubMcpService.runSched r [true, true, false]
            GitHubMcpService.freshConc).phase2 = .finished) := by
  constructor
  · intro r sched
    have h := runSched_potential_le r sched GitHubMcpService.freshConc
    have h2 : concPotential GitHubMcpService.freshConc = 2 := rfl
    have h3 : (GitHubMcpService.runSched r sched GitHubMcpService.freshConc).listCalls ≤
        concPotential (GitHubMcpService.runSched r sched GitHubMcpService.freshConc) := by
      simp only [concPotential]
      omega
    omega
  · intro r
    refine ⟨?_, ?_, ?_⟩ <;>
      simp [GitHubMcpService.runSched, GitHubMcpService.stepConc, GitHubMcpService.stepPhase,
        GitHubMcpService.freshConc, loadAvailableTools_loaded r]
